import Mathlib

/-!
Verification of marnagy/yt-downloader (src/main.py) against its
natural-language specification.

The pure policies (stream selection, filename sanitisation, tag-field
resolution) are embedded as Lean functions translated line by line from
src/main.py.  The effectful parts (the audio pipeline `download_audio`,
the advanced video path in `download_video`, and the batch loop in
`main`) are embedded as explicit state/effect-trace functions: each
external call (stream download, thumbnail fetch, tag save, mkdir/chdir)
is recorded as an `Effect`, and Python exceptions are reflected as
explicit outcomes.
-/

namespace YtDownloader

/-! ### Stream selection: `download_video_part` (src/main.py lines 100-127)

A video `Stream` is modelled by the one attribute the selection policy
reads, `resolution` (the integer parsed in Python by
`int(s.resolution.strip('p'))`), plus an `itag` identifier so that
distinct streams with equal resolution stay distinguishable. -/

structure VStream where
  resolution : Nat
  itag : Nat
  deriving DecidableEq, Repr

/-- Failures of the selection code.  `NoSuitableStream` is the spec's name
for the `ValueError` that Python's `max` raises on an empty sequence at
line 101; `IndexError` models `best_video_streams[-1]` on an empty list
(unreachable when `max` succeeded). -/
inductive SelectError where
  | NoSuitableStream
  | IndexError
  deriving DecidableEq, Repr

/-- `download_video_part` (lines 100-127): `max_suitable_resolution` is the
maximum of the resolutions `≤ max_resolution` (Python `max(filter(...))`,
raising when empty); then the streams are filtered to those with
resolution `≤ max_suitable_resolution` and the last one (`[-1]`) is
downloaded. -/
def downloadVideoPart (streams : List VStream) (maxResolution : Nat) :
    Except SelectError VStream :=
  match ((streams.map (fun s => s.resolution)).filter
      (fun res => res ≤ maxResolution)).max? with
  | none => .error .NoSuitableStream
  | some maxSuitable =>
    match (streams.filter (fun s => s.resolution ≤ maxSuitable)).getLast? with
    | some best => .ok best
    | none => .error .IndexError

/-! ### Audio stream selection (src/main.py lines 129-136 and line 163)

An audio `Stream` is modelled by its `abr` attribute (the integer bitrate
pytube's `order_by('abr')` sorts by) plus an `itag` identifier.
`StreamQuery.order_by` is Python's `sorted`, a stable ascending sort;
`.desc()` reverses; `.first()` / `.last()` take the ends. -/

structure AStream where
  abr : Nat
  itag : Nat
  deriving DecidableEq, Repr

/-- pytube `StreamQuery.order_by('abr')`: stable ascending sort by bitrate. -/
def orderByAbr (streams : List AStream) : List AStream :=
  streams.mergeSort (fun a b => a.abr ≤ b.abr)

/-- `download_audio_part` (lines 129-136) selection:
`streams.order_by('abr').desc().first()`. -/
def downloadAudioPartSelect (streams : List AStream) : Option AStream :=
  ((orderByAbr streams).reverse).head?

/-- `download_audio` (line 163) selection:
`all_streams.filter(type='audio').order_by('abr').last()` (the `filter`
output is the candidate list this function receives). -/
def downloadAudioSelect (streams : List AStream) : Option AStream :=
  (orderByAbr streams).getLast?

/-! ### Filename sanitiser: `remove_forbidden` (src/main.py lines 143-153)

Strings are modelled as `List Char`.  The platform test
`sys.platform == 'win32'` is the Boolean parameter `isWin32`. -/

/-- The `forbidden_symbols` list: the ten characters on win32, empty
otherwise (lines 144-146). -/
def forbiddenSymbols (isWin32 : Bool) : List Char :=
  if isWin32 then ['/', '\\', '?', '%', '*', ':', '|', '"', '<', '>'] else []

/-- Python `s.replace(symbol, '_')` for a single-character pattern. -/
def replaceChar (sym : Char) (s : List Char) : List Char :=
  s.map (fun c => if c = sym then '_' else c)

/-- `remove_forbidden` (lines 143-153): substitute each forbidden symbol
with `'_'` in turn, then replace every character with code point `> 127`
by `'_'`. -/
def removeForbidden (isWin32 : Bool) (s : List Char) : List Char :=
  ((forbiddenSymbols isWin32).foldl (fun acc sym => replaceChar sym acc) s).map
    (fun c => if c.toNat ≤ 127 then c else '_')

/-! ### The audio pipeline: `download_audio` (src/main.py lines 158-239)

The function is embedded as an explicit effect-trace function: every
external call is recorded as an `Effect` in program order, and the
outcome of the one fallible external call inside it (the thumbnail
`requests.get`, which has no surrounding `try`) is an input.  The
stream chosen on line 163 (verified separately via `downloadAudioSelect`)
is passed in already selected. -/

/-- The CLI options `download_audio` reads: the `--exclude_metadata` flag
(stored as `add_metadata`) and the three override strings, `None` when
not supplied. -/
structure AudioArgs where
  add_metadata : Bool
  artist : Option String
  title : Option String
  album : Option String
  deriving DecidableEq, Repr

/-- Python truthiness of an `Optional[str]`: `None` and `''` are falsy. -/
def truthy : Option String → Bool
  | none => false
  | some s => !s.isEmpty

/-- The provider-side facts of one video that `download_audio` reads:
title, author, thumbnail URL and the provider metadata
(`yt.metadata.metadata`, a list of string-keyed dicts). -/
structure YtInfo where
  title : String
  author : String
  thumbnail_url : String
  metadataList : List (List (String × String))
  deriving Repr

/-- `get_metadata` (lines 97-98): the first metadata dict if any, else an
empty dict.  Values are wrapped in `some` because the working dict can
later receive Python `None` (see `resolveTags`). -/
def getMetadata (yt : YtInfo) : List (String × Option String) :=
  (yt.metadataList.headD []).map (fun kv => (kv.1, some kv.2))

/-- Python dict assignment `d[k] = v`: overwrite in place when the key is
present, else append at the end. -/
def dictSet (k : String) (v : Option String) (d : List (String × Option String)) :
    List (String × Option String) :=
  if d.any (fun kv => kv.1 == k) then
    d.map (fun kv => if kv.1 == k then (k, v) else kv)
  else d ++ [(k, v)]

/-- The three resolved text tag fields (`None` models Python `None`). -/
structure TagFields where
  artist : Option String
  title : Option String
  album : Option String
  deriving DecidableEq, Repr

/-- Lines 188-224 of `download_audio`: build `yt_metadata`, apply the
override assignments exactly as written — note that line 194 tests
`args.title is not None` (not `args.album`) before writing
`yt_metadata['Album'] = args.album` — then resolve each tag field from
the dict, falling back to `yt.author` for the artist and `yt.title` for
the song title and the album. -/
def resolveTags (args : AudioArgs) (yt : YtInfo) : TagFields :=
  let m0 := getMetadata yt
  let m1 := match args.artist with
    | some a => dictSet "Artist" (some a) m0
    | none => m0
  let m2 := match args.title with
    | some t => dictSet "Song" (some t) m1
    | none => m1
  let m3 := match args.title with
    | some _ => dictSet "Album" args.album m2
    | none => m2
  { artist := (m3.lookup "Artist").getD (some yt.author)
    title := (m3.lookup "Song").getD (some yt.title)
    album := (m3.lookup "Album").getD (some yt.title) }

/-- The thumbnail HTTP response (`requests.get`): only the status code
drives control flow. -/
structure HttpResponse where
  status_code : Nat
  deriving DecidableEq, Repr

/-- The committed ID3 tag: the three text fields and whether the front
cover image was embedded (`tag.images.set(3, ...)`). -/
structure TagState where
  fields : TagFields
  coverSet : Bool
  deriving DecidableEq, Repr

/-- The observable external actions of `download_audio`, in program
order: `stream.download` (a network transfer), the
`write_audiofile` transcode, `os.remove`, the thumbnail `requests.get`
(a network transfer), and `tag.save()` (which rewrites the file's tag
after `initTag` reset it). -/
inductive Effect where
  | streamDownload (filename : String)
  | transcode (src dst : String)
  | removeFile (filename : String)
  | thumbnailFetch (url : String)
  | tagSave (filename : String) (tag : TagState)
  deriving DecidableEq, Repr

/-- Which effects are network transfers. -/
def Effect.isNetwork : Effect → Bool
  | .streamDownload _ => true
  | .thumbnailFetch _ => true
  | _ => false

/-- Whether an effect is the `tag.save()` commit. -/
def Effect.isTagSave : Effect → Bool
  | .tagSave _ _ => true
  | _ => false

/-- Which effects modify the contents of file `f`. -/
def Effect.writesFile (f : String) : Effect → Bool
  | .transcode _ dst => dst == f
  | .removeFile g => g == f
  | .tagSave g _ => g == f
  | _ => false

/-- The audio stream attributes `download_audio` reads after selection. -/
structure AudioStreamInfo where
  abr : Nat
  mime_type : String
  deriving DecidableEq, Repr

/-- Python `str.split(sep)` for a one-character separator. -/
def splitOnChar (sep : Char) : List Char → List (List Char)
  | [] => [[]]
  | c :: cs =>
    let r := splitOnChar sep cs
    if c = sep then [] :: r
    else (c :: r.headD []) :: r.tail

/-- `download_audio` (lines 158-239).  `pfx` is the `prefix` argument,
`listdir` the contents of the current directory (`os.listdir()`),
`thumbResp` the result of the thumbnail `requests.get` (`none` = the call
raised).  Returns the effect trace and whether an exception propagated
out of the function. -/
def downloadAudio (isWin32 : Bool) (args : AudioArgs) (yt : YtInfo)
    (stream : AudioStreamInfo) (pfx : String) (listdir : List String)
    (thumbResp : Option HttpResponse) : List Effect × Bool :=
  let out_base := String.mk (removeForbidden isWin32 yt.title.data)
  let out_ext := String.mk ((splitOnChar '/' stream.mime_type.data).getD 1 [])
  let out_filename := out_base ++ "." ++ out_ext
  let out_final := pfx ++ (if pfx.length > 0 then "-" else "") ++ out_base ++ ".mp3"
  let dl : List Effect :=
    if listdir.contains out_final then []
    else [.streamDownload out_filename, .transcode out_filename out_final,
          .removeFile out_filename]
  if args.add_metadata || truthy args.artist || truthy args.title
      || truthy args.album then
    let tf := resolveTags args yt
    match thumbResp with
    | none => (dl ++ [.thumbnailFetch yt.thumbnail_url], true)
    | some resp =>
      (dl ++ [.thumbnailFetch yt.thumbnail_url,
              .tagSave out_final ⟨tf, resp.status_code == 200⟩], false)
  else
    (dl, false)

/-! ### The batch loop of `main` (src/main.py lines 344-376)

`yt.streams` can raise; the three pytube exceptions `MembersOnly`,
`AgeRestrictedError` and `RegexMatchError` are caught with `continue`
(lines 353-358); nothing else inside the `for` body is caught — the
outer `try` catches only `KeyboardInterrupt` — so any other exception
leaves the loop. -/

/-- Outcome of resolving `yt.streams` (line 352) for one item. -/
inductive ResolveOutcome where
  | ok
  | membersOnly
  | ageRestricted
  | regexMatch
  | otherError
  deriving DecidableEq, Repr

/-- Outcome of the `download_video` / `download_audio` calls
(lines 360-369) for one item. -/
inductive ProcessOutcome where
  | ok
  | raises
  deriving DecidableEq, Repr

/-- One playlist item, abstracted to the exception behaviour of its two
phases. -/
structure Item where
  resolve : ResolveOutcome
  process : ProcessOutcome
  deriving DecidableEq, Repr

/-- The spec's per-item result status. -/
inductive ItemStatus where
  | completed
  | skippedRestricted
  | failed
  deriving DecidableEq, Repr

/-- The `for` loop of `main` (lines 344-369): statuses of the items it
reaches, in order, and whether an uncaught exception aborted the loop
(leaving the remaining items unprocessed). -/
def runBatch : List Item → List ItemStatus × Bool
  | [] => ([], false)
  | item :: rest =>
    match item.resolve with
    | .membersOnly => let r := runBatch rest; (.skippedRestricted :: r.1, r.2)
    | .ageRestricted => let r := runBatch rest; (.skippedRestricted :: r.1, r.2)
    | .regexMatch => let r := runBatch rest; (.skippedRestricted :: r.1, r.2)
    | .otherError => ([.failed], true)
    | .ok =>
      match item.process with
      | .ok => let r := runBatch rest; (.completed :: r.1, r.2)
      | .raises => ([.failed], true)

/-! ### The advanced (merge) video path of `download_video`
(src/main.py lines 245-286) -/

/-- How the body of the `try` at lines 258-278 ends: success,
`KeyboardInterrupt` (caught at line 279), or any other exception such as
a transcoder failure (uncaught: it propagates after the `finally`). -/
inductive AdvOutcome where
  | success
  | interrupted
  | transcodeError
  deriving DecidableEq, Repr

/-- The file-system facts the claim is about: the directories existing in
the batch output directory, the files in it, and whether the process cwd
is inside the temp directory. -/
structure FsState where
  dirs : List String
  parentFiles : List String
  inTempDir : Bool
  deriving DecidableEq, Repr

/-- The advanced path (lines 251-286): `os.mkdir(tmp)`, `os.chdir(tmp)`,
the try-body (on success `shutil.move` puts the merged file in the
parent directory), `except KeyboardInterrupt` prints, and the `finally`
block runs `os.chdir('..')` only — the `shutil.rmtree` on line 286 is
commented out, so no exit path deletes the temp directory.  Returns the
final state and whether an exception propagates. -/
def downloadVideoAdvanced (tmpId : String) (finalVideoName : String)
    (st : FsState) (outcome : AdvOutcome) : FsState × Bool :=
  let st1 : FsState := { st with dirs := st.dirs ++ [tmpId], inTempDir := true }
  let (st2, raised) :=
    match outcome with
    | .success =>
        ({ st1 with parentFiles := st1.parentFiles ++ [finalVideoName] }, false)
    | .interrupted => (st1, false)
    | .transcodeError => (st1, true)
  ({ st2 with inTempDir := false }, raised)

/-! ## Theorems -/

/-- C1: for every candidate list containing at least one stream with
resolution `≤ cap`, `download_video_part` computes the maximum resolution
value `≤ cap` among the candidates, filters to the streams at or below
that value, and returns the last such stream in the supplied ordering;
in particular the returned stream has resolution `≤ cap`. -/
theorem downloadVideoPart_max_suitable (streams : List VStream) (cap : Nat)
    (h : ∃ s ∈ streams, s.resolution ≤ cap) :
    ∃ m best,
      (∃ t ∈ streams, t.resolution = m) ∧ m ≤ cap ∧
      (∀ t ∈ streams, t.resolution ≤ cap → t.resolution ≤ m) ∧
      (streams.filter (fun s => s.resolution ≤ m)).getLast? = some best ∧
      downloadVideoPart streams cap = .ok best ∧
      best.resolution ≤ cap := by
  obtain ⟨s0, hs0, hr0⟩ := h
  have hmem : s0.resolution ∈ (streams.map (fun s => s.resolution)).filter
      (fun res => res ≤ cap) := by
    simp only [List.mem_filter, List.mem_map, decide_eq_true_eq]
    exact ⟨⟨s0, hs0, rfl⟩, hr0⟩
  obtain ⟨m, hm⟩ := Option.isSome_iff_exists.mp (List.isSome_max?_of_mem hmem)
  obtain ⟨hmmem, hmmax⟩ := List.max?_eq_some_iff'.mp hm
  simp only [List.mem_filter, List.mem_map, decide_eq_true_eq] at hmmem
  obtain ⟨⟨t, ht, hres⟩, hmcap⟩ := hmmem
  have htb : t ∈ streams.filter (fun s => s.resolution ≤ m) := by
    simp only [List.mem_filter, decide_eq_true_eq]
    exact ⟨ht, le_of_eq hres⟩
  obtain ⟨best, hbest⟩ := Option.isSome_iff_exists.mp
    (List.getLast?_isSome.mpr (List.ne_nil_of_mem htb))
  have hbmem := List.mem_of_getLast?_eq_some hbest
  simp only [List.mem_filter, decide_eq_true_eq] at hbmem
  refine ⟨m, best, ⟨t, ht, hres⟩, hmcap, ?_, hbest, ?_, le_trans hbmem.2 hmcap⟩
  · intro u hu hucap
    exact hmmax u.resolution (by
      simp only [List.mem_filter, List.mem_map, decide_eq_true_eq]
      exact ⟨⟨u, hu, rfl⟩, hucap⟩)
  · simp only [downloadVideoPart, hm, hbest]

/-- C1 witness: the theorem applied to a concrete candidate list with a
resolution tie at the cap. -/
theorem downloadVideoPart_max_suitable_witness :
    ∃ m best,
      (∃ t ∈ ([⟨480, 1⟩, ⟨1080, 2⟩, ⟨720, 3⟩, ⟨720, 4⟩] : List VStream),
        t.resolution = m) ∧ m ≤ 720 ∧
      (∀ t ∈ ([⟨480, 1⟩, ⟨1080, 2⟩, ⟨720, 3⟩, ⟨720, 4⟩] : List VStream),
        t.resolution ≤ 720 → t.resolution ≤ m) ∧
      (([⟨480, 1⟩, ⟨1080, 2⟩, ⟨720, 3⟩, ⟨720, 4⟩] : List VStream).filter
        (fun s => s.resolution ≤ m)).getLast? = some best ∧
      downloadVideoPart [⟨480, 1⟩, ⟨1080, 2⟩, ⟨720, 3⟩, ⟨720, 4⟩] 720 = .ok best ∧
      best.resolution ≤ 720 :=
  downloadVideoPart_max_suitable [⟨480, 1⟩, ⟨1080, 2⟩, ⟨720, 3⟩, ⟨720, 4⟩] 720
    ⟨⟨480, 1⟩, by decide, by decide⟩

/-- C2: when no candidate stream has resolution `≤ cap`,
`download_video_part` fails with `NoSuitableStream` (the failure of
`max` on the empty filtered sequence), not with any other error and not
with a stream. -/
theorem downloadVideoPart_no_suitable (streams : List VStream) (cap : Nat)
    (h : ∀ s ∈ streams, ¬ s.resolution ≤ cap) :
    downloadVideoPart streams cap = .error .NoSuitableStream := by
  have hnil : (streams.map (fun s => s.resolution)).filter
      (fun res => res ≤ cap) = [] := by
    rw [List.filter_eq_nil_iff]
    intro a ha
    simp only [List.mem_map] at ha
    obtain ⟨s, hs, rfl⟩ := ha
    simpa using h s hs
  simp [downloadVideoPart, hnil]

/-- C2 witness: a single 1080p candidate under a 720p cap. -/
theorem downloadVideoPart_no_suitable_witness :
    downloadVideoPart [⟨1080, 1⟩] 720 = .error .NoSuitableStream :=
  downloadVideoPart_no_suitable [⟨1080, 1⟩] 720 (by decide)

/-- In a list sorted by non-decreasing bitrate, the last element bounds
every element. -/
theorem abr_le_getLast_of_pairwise {l : List AStream} {s : AStream}
    (hp : l.Pairwise (fun a b => a.abr ≤ b.abr)) (hl : l.getLast? = some s) :
    ∀ t ∈ l, t.abr ≤ s.abr := by
  induction l with
  | nil => simp at hl
  | cons x xs ih =>
    rcases xs with _ | ⟨y, ys⟩
    · simp only [List.getLast?_singleton, Option.some.injEq] at hl
      subst hl
      intro t ht
      simp only [List.mem_singleton] at ht
      subst ht
      exact le_refl _
    · rw [List.getLast?_cons_cons] at hl
      rw [List.pairwise_cons] at hp
      intro t ht
      rcases List.mem_cons.mp ht with rfl | htm
      · exact hp.1 s (List.mem_of_getLast?_eq_some hl)
      · exact ih hp.2 hl t htm

/-- C3: for every non-empty audio candidate list, the stream selected by
`download_audio_part` (`order_by('abr').desc().first()`) is a candidate
of maximal bitrate, and it is the very same stream that the other call
site (`order_by('abr').last()` in `download_audio`) selects — the
tie-break is deterministic: both are the last maximal-bitrate candidate
in the stable ascending sort. -/
theorem downloadAudioPartSelect_max_bitrate (streams : List AStream)
    (h : streams ≠ []) :
    ∃ s, downloadAudioPartSelect streams = some s ∧
      s ∈ streams ∧
      (∀ t ∈ streams, t.abr ≤ s.abr) ∧
      downloadAudioPartSelect streams = downloadAudioSelect streams := by
  have hperm := List.mergeSort_perm streams (fun a b => a.abr ≤ b.abr)
  have hne : orderByAbr streams ≠ [] := by
    intro hc
    unfold orderByAbr at hc
    exact h (List.eq_nil_of_length_eq_zero (by
      rw [← hperm.length_eq, hc, List.length_nil]))
  obtain ⟨s, hs⟩ := Option.isSome_iff_exists.mp (List.getLast?_isSome.mpr hne)
  have hsorted : (orderByAbr streams).Pairwise (fun a b => a.abr ≤ b.abr) := by
    have := @List.sorted_mergeSort AStream (fun a b => a.abr ≤ b.abr)
      (fun a b c h1 h2 => by
        simp only [decide_eq_true_eq] at *
        omega)
      (fun a b => by
        simpa using Nat.le_total a.abr b.abr)
      streams
    exact this.imp (fun hab => by simpa using hab)
  have heq : downloadAudioPartSelect streams = downloadAudioSelect streams := by
    unfold downloadAudioPartSelect downloadAudioSelect
    rw [List.head?_reverse]
  refine ⟨s, ?_, ?_, ?_, heq⟩
  · rw [heq]
    exact hs
  · exact hperm.mem_iff.mp (List.mem_of_getLast?_eq_some hs)
  · intro t ht
    exact abr_le_getLast_of_pairwise hsorted hs t (hperm.mem_iff.mpr ht)

/-- C3 witness: the theorem applied to a concrete candidate list with a
bitrate tie. -/
theorem downloadAudioPartSelect_max_bitrate_witness :
    ∃ s, downloadAudioPartSelect [⟨128, 1⟩, ⟨160, 2⟩, ⟨160, 3⟩] = some s ∧
      s ∈ ([⟨128, 1⟩, ⟨160, 2⟩, ⟨160, 3⟩] : List AStream) ∧
      (∀ t ∈ ([⟨128, 1⟩, ⟨160, 2⟩, ⟨160, 3⟩] : List AStream), t.abr ≤ s.abr) ∧
      downloadAudioPartSelect [⟨128, 1⟩, ⟨160, 2⟩, ⟨160, 3⟩]
        = downloadAudioSelect [⟨128, 1⟩, ⟨160, 2⟩, ⟨160, 3⟩] :=
  downloadAudioPartSelect_max_bitrate [⟨128, 1⟩, ⟨160, 2⟩, ⟨160, 3⟩] (by decide)

/-- After `replaceChar sym`, no character equals `sym` (since the
substitute `'_'` differs from `sym`). -/
theorem replaceChar_no_sym {sym : Char} (hsym : sym ≠ '_') (s : List Char) :
    ∀ c ∈ replaceChar sym s, c ≠ sym := by
  intro c hc
  simp only [replaceChar, List.mem_map] at hc
  obtain ⟨d, _, rfl⟩ := hc
  by_cases hd : d = sym
  · simpa [hd] using fun hcon => hsym hcon.symm
  · simp [hd]

/-- `replaceChar sym` preserves the absence of a character `x ≠ '_'`. -/
theorem replaceChar_preserves_absent {x : Char} (hx : x ≠ '_') (sym : Char)
    (s : List Char) (h : ∀ c ∈ s, c ≠ x) :
    ∀ c ∈ replaceChar sym s, c ≠ x := by
  intro c hc
  simp only [replaceChar, List.mem_map] at hc
  obtain ⟨d, hd, rfl⟩ := hc
  by_cases hds : d = sym
  · simpa [hds] using fun hcon => hx hcon.symm
  · simpa [hds] using h d hd

/-- A full pass of the `for symbol in forbidden_symbols` loop preserves
the absence of a character `x ≠ '_'`. -/
theorem foldl_replace_preserves_absent {x : Char} (hx : x ≠ '_')
    (L : List Char) (s : List Char) (h : ∀ c ∈ s, c ≠ x) :
    ∀ c ∈ L.foldl (fun acc sym => replaceChar sym acc) s, c ≠ x := by
  induction L generalizing s with
  | nil => exact h
  | cons sym L ih =>
    intro c hc
    exact ih (replaceChar sym s) (replaceChar_preserves_absent hx sym s h) c hc

/-- After the `for symbol in forbidden_symbols` loop, no character of the
result is one of the symbols of the loop (provided `'_'` is not one). -/
theorem foldl_replace_no_forbidden (L : List Char) (s : List Char) :
    '_' ∉ L →
    ∀ x ∈ L, ∀ c ∈ L.foldl (fun acc sym => replaceChar sym acc) s, c ≠ x := by
  induction L generalizing s with
  | nil => simp
  | cons sym L ih =>
    intro hL x hx c hc
    rcases List.mem_cons.mp hx with rfl | hxm
    · exact foldl_replace_preserves_absent
        (fun hcon => hL (hcon ▸ List.mem_cons_self _ _)) L (replaceChar x s)
        (replaceChar_no_sym (fun hcon => hL (hcon ▸ List.mem_cons_self _ _)) s)
        c hc
    · exact ih (replaceChar sym s) (fun hcon => hL (List.mem_cons_of_mem _ hcon))
        x hxm c hc

/-- `replaceChar sym` is the identity when `sym` does not occur. -/
theorem replaceChar_eq_self (sym : Char) (s : List Char)
    (h : ∀ c ∈ s, c ≠ sym) : replaceChar sym s = s := by
  unfold replaceChar
  rw [List.map_congr_left (fun c hc => if_neg (h c hc))]
  simp

/-- The `for symbol in forbidden_symbols` loop is the identity when no
character of `s` is one of the symbols. -/
theorem foldl_replace_eq_self (L : List Char) (s : List Char)
    (h : ∀ x ∈ L, ∀ c ∈ s, c ≠ x) :
    L.foldl (fun acc sym => replaceChar sym acc) s = s := by
  induction L with
  | nil => rfl
  | cons sym L ih =>
    rw [List.foldl_cons,
      replaceChar_eq_self sym s (fun c hc => h sym (List.mem_cons_self _ _) c hc)]
    exact ih (fun x hx c hc => h x (List.mem_cons_of_mem _ hx) c hc)

/-- A `map` whose function fixes every member is the identity. -/
theorem map_eq_self_of_fixes {l : List Char} {f : Char → Char}
    (h : ∀ c ∈ l, f c = c) : l.map f = l := by
  rw [List.map_congr_left h]
  simp

/-- Every character of `remove_forbidden`'s output has code point `≤ 127`. -/
theorem removeForbidden_ascii (w : Bool) (s : List Char) :
    ∀ c ∈ removeForbidden w s, c.toNat ≤ 127 := by
  intro c hc
  simp only [removeForbidden, List.mem_map] at hc
  obtain ⟨d, _, rfl⟩ := hc
  by_cases hd : d.toNat ≤ 127
  · simp [hd]
  · simp [hd]

/-- The substitute `'_'` is never a forbidden symbol. -/
theorem underscore_not_forbidden (w : Bool) : '_' ∉ forbiddenSymbols w := by
  cases w <;> decide

/-- No character of `remove_forbidden`'s output is a forbidden symbol of
the platform it ran on. -/
theorem removeForbidden_no_forbidden (w : Bool) (s : List Char) :
    ∀ c ∈ removeForbidden w s, c ∉ forbiddenSymbols w := by
  intro c hc hcf
  simp only [removeForbidden, List.mem_map] at hc
  obtain ⟨d, hd, rfl⟩ := hc
  have hdf : d ∉ forbiddenSymbols w := fun hdm =>
    foldl_replace_no_forbidden (forbiddenSymbols w) s (underscore_not_forbidden w)
      d hdm d hd rfl
  by_cases h127 : d.toNat ≤ 127
  · exact hdf (by simpa [h127] using hcf)
  · exact underscore_not_forbidden w (by simpa [h127] using hcf)

/-- `remove_forbidden` is idempotent. -/
theorem removeForbidden_idem (w : Bool) (s : List Char) :
    removeForbidden w (removeForbidden w s) = removeForbidden w s := by
  conv_lhs => rw [removeForbidden]
  rw [foldl_replace_eq_self _ _
    (fun x hx c hc hcx => removeForbidden_no_forbidden w s c hc (hcx ▸ hx))]
  exact map_eq_self_of_fixes (fun c hc => if_pos (removeForbidden_ascii w s c hc))

/-- C4: `remove_forbidden` is idempotent, its output contains no code
point above 127 and (on the platform where the forbidden set is active)
none of the forbidden characters.  Purity, totality and determinism hold
by construction: the embedding is a total Lean function of its input
alone, exactly as the Python reads only `s` and the constant platform
string. -/
theorem removeForbidden_spec (w : Bool) (s : List Char) :
    removeForbidden w (removeForbidden w s) = removeForbidden w s ∧
    (∀ c ∈ removeForbidden w s, c.toNat ≤ 127) ∧
    (∀ c ∈ removeForbidden w s, c ∉ forbiddenSymbols w) :=
  ⟨removeForbidden_idem w s, removeForbidden_ascii w s,
    removeForbidden_no_forbidden w s⟩

/-- C10: on strings of code points `≤ 127` containing no forbidden
character of the active platform, `remove_forbidden` is the identity; on
platforms other than win32 the forbidden set is empty, so every all-ASCII
string — even one containing `/`, `:` or `?` — is returned unchanged. -/
theorem removeForbidden_id_on_clean (w : Bool) (s : List Char)
    (h : ∀ c ∈ s, c.toNat ≤ 127 ∧ c ∉ forbiddenSymbols w) :
    removeForbidden w s = s := by
  unfold removeForbidden
  rw [foldl_replace_eq_self _ _ (fun x hx c hc hcx => (h c hc).2 (hcx ▸ hx))]
  exact map_eq_self_of_fixes (fun c hc => if_pos (h c hc).1)

/-- C10 witness: on a non-win32 platform an ASCII title containing `/`,
`:` and `?` passes through unchanged. -/
theorem removeForbidden_id_on_clean_witness :
    removeForbidden false ("a/b:c?d".data) = "a/b:c?d".data :=
  removeForbidden_id_on_clean false ("a/b:c?d".data) (by decide)

/-- C5 counterexample: with the default options (`add_metadata = true`, no
overrides) and the final file `"Song Title.mp3"` already present in the
directory, `download_audio` still performs the thumbnail `requests.get`
— one network call — and still rewrites the existing file's tag with
`tag.save()`: the run is not zero-effect. -/
theorem downloadAudio_rerun_not_skipped :
    downloadAudio false ⟨true, none, none, none⟩
        ⟨"Song Title", "Author", "http://img", []⟩ ⟨160, "audio/webm"⟩ ""
        ["Song Title.mp3"] (some ⟨200⟩)
      = ([.thumbnailFetch "http://img",
          .tagSave "Song Title.mp3"
            ⟨⟨some "Author", some "Song Title", some "Song Title"⟩, true⟩],
         false) ∧
    (downloadAudio false ⟨true, none, none, none⟩
        ⟨"Song Title", "Author", "http://img", []⟩ ⟨160, "audio/webm"⟩ ""
        ["Song Title.mp3"] (some ⟨200⟩)).1.countP Effect.isNetwork = 1 ∧
    (downloadAudio false ⟨true, none, none, none⟩
        ⟨"Song Title", "Author", "http://img", []⟩ ⟨160, "audio/webm"⟩ ""
        ["Song Title.mp3"] (some ⟨200⟩)).1.countP
          (Effect.writesFile "Song Title.mp3") = 1 := by
  refine ⟨by decide, by decide, by decide⟩

/-- C5 amended: when the final audio filename already exists in the
directory AND metadata tagging is off (the `--exclude_metadata` flag was
given and no override field is truthy), `download_audio` performs no
effect at all: zero network calls and the existing file untouched.  With
metadata on — the default — the tagging step still runs. -/
theorem downloadAudio_skip_when_no_tagging (isWin32 : Bool) (args : AudioArgs)
    (yt : YtInfo) (stream : AudioStreamInfo) (pfx : String)
    (listdir : List String) (thumbResp : Option HttpResponse)
    (hexists : listdir.contains (pfx ++ (if pfx.length > 0 then "-" else "")
      ++ String.mk (removeForbidden isWin32 yt.title.data) ++ ".mp3") = true)
    (hmeta : args.add_metadata = false) (ha : truthy args.artist = false)
    (ht : truthy args.title = false) (hal : truthy args.album = false) :
    downloadAudio isWin32 args yt stream pfx listdir thumbResp = ([], false) := by
  unfold downloadAudio
  simp [hmeta, ha, ht, hal]
  simpa using hexists

/-- C5 witness: the amended theorem applied to a concrete directory that
already holds `"T.mp3"`, with metadata excluded. -/
theorem downloadAudio_skip_when_no_tagging_witness :
    downloadAudio false ⟨false, none, none, none⟩ ⟨"T", "A", "u", []⟩
      ⟨128, "audio/mp4"⟩ "" ["T.mp3"] none = ([], false) :=
  downloadAudio_skip_when_no_tagging false ⟨false, none, none, none⟩
    ⟨"T", "A", "u", []⟩ ⟨128, "audio/mp4"⟩ "" ["T.mp3"] none
    (by decide) rfl rfl rfl rfl

/-- C8: the tag-field precedence at concrete inputs.  The artist chain
behaves as the spec's example says (override `"Bob"` wins, then provider
`Artist = "Alice"`, then author `"Carol"`), but the album override is
broken: line 194 of src/main.py tests `args.title` instead of
`args.album`, so an album override `"X"` supplied alone is ignored (the
fallback title `"T"` is committed), and a title override supplied
without an album override commits album `None`. -/
theorem resolveTags_album_override_ignored :
    (resolveTags ⟨true, some "Bob", none, none⟩
      ⟨"T", "Carol", "u", [[("Artist", "Alice")]]⟩).artist = some "Bob" ∧
    (resolveTags ⟨true, none, none, none⟩
      ⟨"T", "Carol", "u", [[("Artist", "Alice")]]⟩).artist = some "Alice" ∧
    (resolveTags ⟨true, none, none, none⟩
      ⟨"T", "Carol", "u", []⟩).artist = some "Carol" ∧
    (resolveTags ⟨true, none, none, some "X"⟩
      ⟨"T", "Carol", "u", []⟩).album = some "T" ∧
    (resolveTags ⟨true, none, some "S", none⟩
      ⟨"T", "Carol", "u", []⟩).album = none := by
  refine ⟨by decide, by decide, by decide, by decide, by decide⟩

/-- C9 counterexample: when the thumbnail `requests.get` raises (there is
no `try` around it), `download_audio` ends without ever reaching
`tag.save()` — the trace stops at the fetch and the exception propagates
— so the tagging step does not commit. -/
theorem downloadAudio_fetch_failure_no_commit :
    downloadAudio false ⟨true, none, none, none⟩ ⟨"T", "A", "u", []⟩
        ⟨128, "audio/mp4"⟩ "" [] none
      = ([.streamDownload "T.mp4", .transcode "T.mp4" "T.mp3",
          .removeFile "T.mp4", .thumbnailFetch "u"], true) := by
  decide

/-- C9 amended: whenever the tagging block runs and the thumbnail fetch
*returns* a response, the tag save commits, with the cover embedded
exactly when the status is 200; but when the fetch *raises*, no tag save
happens and the exception propagates out of `download_audio`. -/
theorem downloadAudio_cover_policy (isWin32 : Bool) (args : AudioArgs)
    (yt : YtInfo) (stream : AudioStreamInfo) (pfx : String)
    (listdir : List String) (resp : HttpResponse)
    (hmeta : (args.add_metadata || truthy args.artist || truthy args.title
      || truthy args.album) = true) :
    (downloadAudio isWin32 args yt stream pfx listdir (some resp)).1.getLast?
        = some (.tagSave (pfx ++ (if pfx.length > 0 then "-" else "")
            ++ String.mk (removeForbidden isWin32 yt.title.data) ++ ".mp3")
          ⟨resolveTags args yt, resp.status_code == 200⟩) ∧
    (downloadAudio isWin32 args yt stream pfx listdir (some resp)).2 = false ∧
    (downloadAudio isWin32 args yt stream pfx listdir none).1.all
        (fun e => !(Effect.isTagSave e)) = true ∧
    (downloadAudio isWin32 args yt stream pfx listdir none).2 = true := by
  unfold downloadAudio
  by_cases hdl : (pfx ++ (if pfx.length > 0 then "-" else "")
      ++ String.mk (removeForbidden isWin32 yt.title.data) ++ ".mp3") ∈ listdir
  · simp [hmeta, hdl, Effect.isTagSave]
  · simp [hmeta, hdl, Effect.isTagSave]

/-- C9 witness: the amended theorem applied at a concrete input with a
404 thumbnail response. -/
theorem downloadAudio_cover_policy_witness :
    (downloadAudio false ⟨true, none, none, none⟩ ⟨"T", "A", "u", []⟩
        ⟨128, "audio/mp4"⟩ "" [] (some ⟨404⟩)).2 = false :=
  (downloadAudio_cover_policy false ⟨true, none, none, none⟩ ⟨"T", "A", "u", []⟩
    ⟨128, "audio/mp4"⟩ "" [] ⟨404⟩ rfl).2.1

/-- C6 counterexample: a batch of two items where the first raises a
non-restricted exception while being processed: the loop aborts with
only the first item's failure — the second item is never processed —
whereas the claim says the batch would continue
(`[failed, completed]`). -/
theorem runBatch_other_exception_aborts :
    runBatch [⟨.ok, .raises⟩, ⟨.ok, .ok⟩] = ([.failed], true) ∧
    runBatch [⟨.ok, .raises⟩, ⟨.ok, .ok⟩]
      ≠ ([.failed, .completed], false) := by
  refine ⟨by decide, by decide⟩

/-- C6 amended: the three restricted-content exceptions from `yt.streams`
(members-only, age-restricted, locator-pattern mismatch) make the loop
skip that item and continue with the rest; every other exception —
whether from resolving the streams or from processing the item — is not
caught inside the loop and aborts the whole batch, leaving the remaining
items unprocessed. -/
theorem runBatch_restricted_skips_others_abort (item : Item)
    (rest : List Item) :
    ((item.resolve = .membersOnly ∨ item.resolve = .ageRestricted ∨
        item.resolve = .regexMatch) →
      runBatch (item :: rest)
        = (.skippedRestricted :: (runBatch rest).1, (runBatch rest).2)) ∧
    (item.resolve = .ok → item.process = .raises →
      runBatch (item :: rest) = ([.failed], true)) ∧
    (item.resolve = .otherError →
      runBatch (item :: rest) = ([.failed], true)) := by
  obtain ⟨res, proc⟩ := item
  cases res <;> cases proc <;> simp [runBatch]

/-- C6 witness: the amended theorem applied to a members-only first item
followed by an ordinary item. -/
theorem runBatch_restricted_skips_witness :
    runBatch [⟨.membersOnly, .ok⟩, ⟨.ok, .ok⟩]
      = (.skippedRestricted :: (runBatch [⟨.ok, .ok⟩]).1,
         (runBatch [⟨.ok, .ok⟩]).2) :=
  (runBatch_restricted_skips_others_abort ⟨.membersOnly, .ok⟩
    [⟨.ok, .ok⟩]).1 (Or.inl rfl)

/-- C7 counterexample: after a *successful* run of the advanced video
path the temporary directory still exists in the output directory —
`shutil.rmtree` is commented out at line 286 — refuting "the temporary
directory no longer exists on disk" on the success exit path. -/
theorem advanced_temp_dir_survives :
    (downloadVideoAdvanced "123_T" "T.mp4" ⟨[], [], false⟩ .success).1.dirs
      = ["123_T"] ∧
    (downloadVideoAdvanced "123_T" "T.mp4" ⟨[], [], false⟩ .success).2
      = false := by
  refine ⟨by decide, by decide⟩

/-- C7 amended: on every exit path of the advanced video path — success,
transcoder failure, or interrupt — the `finally` block restores the
working directory to the parent, but the temporary directory is never
removed: it remains on disk. -/
theorem advanced_temp_dir_never_removed (tmpId finalName : String)
    (st : FsState) (outcome : AdvOutcome) :
    tmpId ∈ (downloadVideoAdvanced tmpId finalName st outcome).1.dirs ∧
    (downloadVideoAdvanced tmpId finalName st outcome).1.inTempDir = false := by
  cases outcome <;> simp [downloadVideoAdvanced]

end YtDownloader
